import Mathlib

/-!
Verification of `scripts/make_glyphs.py`: a two-pass per-pixel image
transform (background removal to alpha, then white silhouette) with a
small CLI driver.  Images are embedded as a structure carrying width,
height and a flat row-major pixel list, mirroring PIL's `getdata` /
`putdata` view of an RGBA image.
-/

/-- An RGBA pixel: four channels, each a natural number (8-bit in practice). -/
structure Pixel where
  r : Nat
  g : Nat
  b : Nat
  a : Nat
deriving DecidableEq, Repr

/-- An image buffer: dimensions plus a flat row-major pixel sequence,
as exposed by PIL's `getdata`. -/
structure Img where
  width : Nat
  height : Nat
  data : List Pixel
deriving DecidableEq, Repr

/-- Per-pixel body of the loop in `remove_background_to_alpha`:
if every channel is within `tol` of the background color and the pixel is
not already fully transparent, set alpha to 0 keeping RGB; otherwise the
pixel passes through verbatim. -/
def removePixel (br bgc bb tol : Nat) (p : Pixel) : Pixel :=
  if ((p.r : Int) - br).natAbs ≤ tol ∧ ((p.g : Int) - bgc).natAbs ≤ tol ∧
     ((p.b : Int) - bb).natAbs ≤ tol ∧ p.a ≠ 0
  then ⟨p.r, p.g, p.b, 0⟩
  else p

/-- `remove_background_to_alpha(img, bg, tol)`: map `removePixel` over the
flat pixel data; `putdata` back into the same image keeps the dimensions. -/
def remove_background_to_alpha (img : Img) (bg : Nat × Nat × Nat) (tol : Nat) : Img :=
  { img with data := img.data.map (removePixel bg.1 bg.2.1 bg.2.2 tol) }

/-- Per-pixel body of the loop in `to_white_silhouette`. -/
def silPixel (p : Pixel) : Pixel :=
  if p.a = 0 then ⟨255, 255, 255, 0⟩ else ⟨255, 255, 255, 255⟩

/-- `to_white_silhouette(img)`: map `silPixel` over the flat pixel data. -/
def to_white_silhouette (img : Img) : Img :=
  { img with data := img.data.map silPixel }

/-- Observable outcome of one run of the driver: exit status, lines printed
to standard output, and the output files written (basename, buffer). -/
structure DriverResult where
  exitCode : Nat
  stdout : List String
  written : List (String × Img)
deriving DecidableEq

/-- The usage message printed by `main` when no source path is given. -/
def usageMsg : String := "usage: make_glyphs.py <source_icon>"

/-- The driver `main`, parameterised by the image loader (`Image.open`).
With fewer than two argv entries it prints the usage message and exits
with status 1; otherwise it loads the source, runs the two passes with
the default background (255,255,255) and tolerance 12, and writes
`icon-glyph.png` and `icon-glyph-white.png` next to the input. -/
def mainRun (argv : List String) (load : String → Img) : DriverResult :=
  if argv.length < 2 then
    { exitCode := 1, stdout := [usageMsg], written := [] }
  else
    let src := argv.getD 1 ""
    let base := load src
    let glyph := remove_background_to_alpha base (255, 255, 255) 12
    let white := to_white_silhouette glyph
    { exitCode := 0, stdout := [],
      written := [("icon-glyph.png", glyph), ("icon-glyph-white.png", white)] }

/-- Abbreviation for the background-removal pass at the driver's defaults. -/
def removeBGDefault (img : Img) : Img :=
  remove_background_to_alpha img (255, 255, 255) 12

theorem silPixel_idem (p : Pixel) : silPixel (silPixel p) = silPixel p := by
  unfold silPixel
  by_cases h : p.a = 0 <;> simp [h]

theorem removePixel_idem (br bgc bb tol : Nat) (p : Pixel) :
    removePixel br bgc bb tol (removePixel br bgc bb tol p) =
      removePixel br bgc bb tol p := by
  unfold removePixel
  by_cases h : ((p.r : Int) - br).natAbs ≤ tol ∧ ((p.g : Int) - bgc).natAbs ≤ tol ∧
      ((p.b : Int) - bb).natAbs ≤ tol ∧ p.a ≠ 0
  · simp [h]
  · simp [h]

theorem silPixel_congr_a (p q : Pixel) (h : p.a = q.a) : silPixel p = silPixel q := by
  unfold silPixel
  rw [h]

theorem silPixel_removePixel (br bgc bb tol : Nat) (p : Pixel) :
    silPixel (removePixel br bgc bb tol p) =
      if p.a ≠ 0 ∧ (tol < ((p.r : Int) - br).natAbs ∨ tol < ((p.g : Int) - bgc).natAbs ∨
          tol < ((p.b : Int) - bb).natAbs)
      then ⟨255, 255, 255, 255⟩ else ⟨255, 255, 255, 0⟩ := by
  unfold removePixel silPixel
  by_cases hc : ((p.r : Int) - br).natAbs ≤ tol ∧ ((p.g : Int) - bgc).natAbs ≤ tol ∧
      ((p.b : Int) - bb).natAbs ≤ tol ∧ p.a ≠ 0
  · rw [if_pos hc]
    have hns : ¬ (p.a ≠ 0 ∧ (tol < ((p.r : Int) - br).natAbs ∨
        tol < ((p.g : Int) - bgc).natAbs ∨ tol < ((p.b : Int) - bb).natAbs)) := by omega
    rw [if_neg hns, if_pos rfl]
  · rw [if_neg hc]
    by_cases ha : p.a = 0
    · have hns : ¬ (p.a ≠ 0 ∧ (tol < ((p.r : Int) - br).natAbs ∨
          tol < ((p.g : Int) - bgc).natAbs ∨ tol < ((p.b : Int) - bb).natAbs)) := by omega
      rw [if_neg hns, if_pos ha]
    · have hs : p.a ≠ 0 ∧ (tol < ((p.r : Int) - br).natAbs ∨
          tol < ((p.g : Int) - bgc).natAbs ∨ tol < ((p.b : Int) - bb).natAbs) := by omega
      rw [if_pos hs, if_neg ha]

/-- Claim C1: the background-removal pass keeps the dimensions of the input,
and every pixel whose red, green and blue channels are each within 12 of 255
and whose alpha is nonzero gets output alpha 0 with its RGB channels
unchanged. -/
theorem C1_remove_background_near_white (img : Img) (i : Nat) (p : Pixel)
    (hp : img.data[i]? = some p)
    (hr : ((p.r : Int) - 255).natAbs ≤ 12)
    (hg : ((p.g : Int) - 255).natAbs ≤ 12)
    (hb : ((p.b : Int) - 255).natAbs ≤ 12)
    (ha : p.a ≠ 0) :
    (remove_background_to_alpha img (255, 255, 255) 12).width = img.width ∧
    (remove_background_to_alpha img (255, 255, 255) 12).height = img.height ∧
    (remove_background_to_alpha img (255, 255, 255) 12).data[i]? =
      some ⟨p.r, p.g, p.b, 0⟩ := by
  refine ⟨rfl, rfl, ?_⟩
  simp [remove_background_to_alpha, List.getElem?_map, hp, removePixel, hr, hg, hb, ha]

theorem C1_remove_background_near_white_witness :
    (remove_background_to_alpha ⟨1, 1, [⟨250, 250, 250, 255⟩]⟩ (255, 255, 255) 12).width = 1 ∧
    (remove_background_to_alpha ⟨1, 1, [⟨250, 250, 250, 255⟩]⟩ (255, 255, 255) 12).height = 1 ∧
    (remove_background_to_alpha ⟨1, 1, [⟨250, 250, 250, 255⟩]⟩ (255, 255, 255) 12).data[0]? =
      some ⟨250, 250, 250, 0⟩ :=
  C1_remove_background_near_white ⟨1, 1, [⟨250, 250, 250, 255⟩]⟩ 0 ⟨250, 250, 250, 255⟩
    rfl (by decide) (by decide) (by decide) (by decide)

/-- Claim C2: any pixel failing the background classification — some RGB
channel more than 12 away from 255, or alpha already 0 — passes through the
background-removal pass verbatim, RGB and alpha both unchanged. -/
theorem C2_remove_background_passthrough (img : Img) (i : Nat) (p : Pixel)
    (hp : img.data[i]? = some p)
    (hmiss : 12 < ((p.r : Int) - 255).natAbs ∨ 12 < ((p.g : Int) - 255).natAbs ∨
      12 < ((p.b : Int) - 255).natAbs ∨ p.a = 0) :
    (remove_background_to_alpha img (255, 255, 255) 12).data[i]? = some p := by
  have hcond : ¬ (((p.r : Int) - 255).natAbs ≤ 12 ∧ ((p.g : Int) - 255).natAbs ≤ 12 ∧
      ((p.b : Int) - 255).natAbs ≤ 12 ∧ p.a ≠ 0) := by
    rcases hmiss with h | h | h | h <;> omega
  simp [remove_background_to_alpha, List.getElem?_map, hp, removePixel, hcond]

theorem C2_remove_background_passthrough_witness :
    (remove_background_to_alpha ⟨2, 1, [⟨10, 20, 30, 255⟩, ⟨250, 250, 250, 0⟩]⟩
        (255, 255, 255) 12).data[0]? = some ⟨10, 20, 30, 255⟩ :=
  C2_remove_background_passthrough ⟨2, 1, [⟨10, 20, 30, 255⟩, ⟨250, 250, 250, 0⟩]⟩ 0
    ⟨10, 20, 30, 255⟩ rfl (Or.inl (by decide))

/-- Claim C3: the silhouette pass maps every pixel with alpha 0 to
(255,255,255,0) and every pixel with nonzero alpha to (255,255,255,255),
so every pixel of its output is one of those two values. -/
theorem C3_silhouette_binary (img : Img) :
    (∀ i : Nat, ∀ p : Pixel, img.data[i]? = some p →
      (to_white_silhouette img).data[i]? =
        some (if p.a = 0 then (⟨255, 255, 255, 0⟩ : Pixel) else ⟨255, 255, 255, 255⟩)) ∧
    ∀ q ∈ (to_white_silhouette img).data,
      q = ⟨255, 255, 255, 0⟩ ∨ q = ⟨255, 255, 255, 255⟩ := by
  constructor
  · intro i p hp
    simp [to_white_silhouette, List.getElem?_map, hp, silPixel]
  · intro q hq
    simp only [to_white_silhouette, List.mem_map] at hq
    obtain ⟨p, -, hpq⟩ := hq
    unfold silPixel at hpq
    by_cases h : p.a = 0
    · left; simp [h] at hpq; exact hpq.symm
    · right; simp [h] at hpq; exact hpq.symm

theorem C3_silhouette_binary_witness :
    (to_white_silhouette ⟨2, 1, [⟨250, 250, 250, 0⟩, ⟨10, 20, 30, 255⟩]⟩).data[1]? =
      some ⟨255, 255, 255, 255⟩ := by
  have h := (C3_silhouette_binary ⟨2, 1, [⟨250, 250, 250, 0⟩, ⟨10, 20, 30, 255⟩]⟩).1
    1 ⟨10, 20, 30, 255⟩ rfl
  simpa using h

/-- Claim C4: invoked with no source-path argument, the driver prints the
usage message to standard output, exits with status 1 and writes no files;
this holds for every loader, so no image is ever opened. -/
theorem C4_no_argument_usage (argv : List String) (h : argv.length < 2)
    (load : String → Img) :
    mainRun argv load = { exitCode := 1, stdout := [usageMsg], written := [] } := by
  simp [mainRun, h]

theorem C4_no_argument_usage_witness :
    mainRun ["make_glyphs.py"] (fun _ => ⟨0, 0, []⟩) =
      { exitCode := 1, stdout := [usageMsg], written := [] } :=
  C4_no_argument_usage ["make_glyphs.py"] (by decide) (fun _ => ⟨0, 0, []⟩)

/-- Claim C5: both passes preserve the width, the height and the pixel count
of their input. -/
theorem C5_dimension_preservation (img : Img) (bg : Nat × Nat × Nat) (tol : Nat) :
    ((remove_background_to_alpha img bg tol).width = img.width ∧
     (remove_background_to_alpha img bg tol).height = img.height ∧
     (remove_background_to_alpha img bg tol).data.length = img.data.length) ∧
    ((to_white_silhouette img).width = img.width ∧
     (to_white_silhouette img).height = img.height ∧
     (to_white_silhouette img).data.length = img.data.length) := by
  refine ⟨⟨rfl, rfl, ?_⟩, rfl, rfl, ?_⟩ <;>
    simp [remove_background_to_alpha, to_white_silhouette]

/-- Claim C6: the silhouette pass is idempotent. -/
theorem C6_silhouette_idempotent (img : Img) :
    to_white_silhouette (to_white_silhouette img) = to_white_silhouette img := by
  cases img with
  | mk w h d =>
    simp only [to_white_silhouette, List.map_map]
    have : silPixel ∘ silPixel = silPixel := funext silPixel_idem
    rw [this]

/-- Claim C7: the silhouette pass depends only on the alpha channel — two
inputs of the same dimensions whose pixels agree on alpha produce identical
outputs, whatever their RGB channels. -/
theorem C7_silhouette_alpha_noninterference (img1 img2 : Img)
    (hw : img1.width = img2.width) (hh : img1.height = img2.height)
    (ha : ∀ i : Nat, (img1.data[i]?).map Pixel.a = (img2.data[i]?).map Pixel.a) :
    to_white_silhouette img1 = to_white_silhouette img2 := by
  cases img1 with
  | mk w1 h1 d1 =>
    cases img2 with
    | mk w2 h2 d2 =>
      simp only at hw hh ha
      subst hw hh
      simp only [to_white_silhouette, Img.mk.injEq, true_and]
      apply List.ext_getElem?
      intro i
      have hai := ha i
      simp only [List.getElem?_map]
      cases hd1 : d1[i]? with
      | none =>
        cases hd2 : d2[i]? with
        | none => rfl
        | some q => rw [hd1, hd2] at hai; simp at hai
      | some p =>
        cases hd2 : d2[i]? with
        | none => rw [hd1, hd2] at hai; simp at hai
        | some q =>
          rw [hd1, hd2] at hai
          simp only [Option.map] at hai ⊢
          exact congrArg some (silPixel_congr_a p q (by injection hai))

theorem C7_silhouette_alpha_noninterference_witness :
    to_white_silhouette ⟨1, 1, [⟨0, 0, 0, 7⟩]⟩ =
      to_white_silhouette ⟨1, 1, [⟨99, 120, 200, 7⟩]⟩ :=
  C7_silhouette_alpha_noninterference ⟨1, 1, [⟨0, 0, 0, 7⟩]⟩ ⟨1, 1, [⟨99, 120, 200, 7⟩]⟩
    rfl rfl (fun i => by cases i <;> rfl)

/-- Claim C8: once the background-removal pass has set a pixel's alpha to 0,
the subsequent silhouette pass also outputs alpha 0 at that position. -/
theorem C8_transparency_never_restored (img : Img) (i : Nat) (p : Pixel)
    (hp : (removeBGDefault img).data[i]? = some p) (ha : p.a = 0) :
    ∃ q : Pixel, (to_white_silhouette (removeBGDefault img)).data[i]? = some q ∧
      q.a = 0 := by
  refine ⟨⟨255, 255, 255, 0⟩, ?_, rfl⟩
  simp [to_white_silhouette, List.getElem?_map, hp, silPixel, ha]

theorem C8_transparency_never_restored_witness :
    ∃ q : Pixel,
      (to_white_silhouette (removeBGDefault ⟨1, 1, [⟨255, 255, 255, 200⟩]⟩)).data[0]? =
        some q ∧ q.a = 0 :=
  C8_transparency_never_restored ⟨1, 1, [⟨255, 255, 255, 200⟩]⟩ 0 ⟨255, 255, 255, 0⟩
    (by decide) rfl

/-- Claim C9: the background-removal pass is idempotent at any fixed
background color and tolerance. -/
theorem C9_remove_background_idempotent (img : Img) (bg : Nat × Nat × Nat) (tol : Nat) :
    remove_background_to_alpha (remove_background_to_alpha img bg tol) bg tol =
      remove_background_to_alpha img bg tol := by
  cases img with
  | mk w h d =>
    simp only [remove_background_to_alpha, List.map_map]
    have : removePixel bg.1 bg.2.1 bg.2.2 tol ∘ removePixel bg.1 bg.2.1 bg.2.2 tol =
        removePixel bg.1 bg.2.1 bg.2.2 tol :=
      funext (removePixel_idem bg.1 bg.2.1 bg.2.2 tol)
    rw [this]

/-- Claim C10: end to end, the white-silhouette output pixel is
(255,255,255,255) exactly when the input pixel has nonzero alpha and some
RGB channel more than 12 away from 255, and (255,255,255,0) otherwise. -/
theorem C10_pipeline_characterization (img : Img) (i : Nat) (p : Pixel)
    (hp : img.data[i]? = some p) :
    (to_white_silhouette (removeBGDefault img)).data[i]? =
      some (if p.a ≠ 0 ∧ (12 < ((p.r : Int) - 255).natAbs ∨
              12 < ((p.g : Int) - 255).natAbs ∨ 12 < ((p.b : Int) - 255).natAbs)
            then (⟨255, 255, 255, 255⟩ : Pixel) else ⟨255, 255, 255, 0⟩) := by
  have hmap : (to_white_silhouette (removeBGDefault img)).data[i]? =
      (img.data[i]?).map (fun q => silPixel (removePixel 255 255 255 12 q)) := by
    simp [removeBGDefault, remove_background_to_alpha, to_white_silhouette,
      List.map_map, List.getElem?_map, Function.comp_def]
  rw [hmap, hp]
  simp only [Option.map]
  rw [silPixel_removePixel]
  norm_cast

theorem C10_pipeline_characterization_witness :
    (to_white_silhouette (removeBGDefault ⟨2, 1,
        [⟨255, 255, 255, 255⟩, ⟨10, 20, 30, 255⟩]⟩)).data[1]? =
      some ⟨255, 255, 255, 255⟩ := by
  have h := C10_pipeline_characterization ⟨2, 1, [⟨255, 255, 255, 255⟩, ⟨10, 20, 30, 255⟩]⟩
    1 ⟨10, 20, 30, 255⟩ rfl
  simpa using h
